import Mathlib

/-!
# Verification of `get_subs.py` (subsidiary data extractor)

Shallow embedding of the single source file of the repository, `src/get_subs.py`:
a Streamlit tool that fetches a JSON envelope of subsidiaries over HTTP,
flattens the record list with `pandas.json_normalize`, drops a fixed set of
bookkeeping columns, previews the table and serializes it to CSV.

Modelling notes (stated once here, referenced by the definitions below):
* JSON numbers are modelled as integers (`Int`); IEEE-754 floating point is
  outside the embedding.  A numeric column with missing entries gets dtype
  float64 and its cells are written as `str(float(n))`: for |n| ≤ 2^53 the
  conversion to double is exact and the Python shortest repr of an integral
  double below 10^16 is its exact decimal followed by `.0`, so `floatCellText`
  is byte-exact there.  Beyond 2^53 the program writes the shortest repr of
  the rounded double (exponent form from 10^16 on), which `floatCellText`
  does not reproduce; every statement whose truth depends on a float64 cell
  text therefore carries the |n| ≤ 2^53 bound as a hypothesis.
* Python dictionaries decoded from JSON have unique keys, so association
  lists with first-match lookup are an exact model of the record dictionaries.
* `requests` semantics follow the current library (>= 2.27):
  `raise_for_status` raises exactly for status codes 400-599, and
  `response.json()` on a malformed body raises
  `requests.exceptions.JSONDecodeError`, a `RequestException`, hence is
  caught by the handler in `get_subsidiaries`.
* pandas `to_csv` is modelled with the POSIX line terminator, UTF-8 text as
  Lean strings, and `QUOTE_MINIMAL` quoting.
-/

namespace GetSubs

/-- JSON values as produced by `response.json()`: strings, numbers
(integers, see the modelling notes), booleans, `None`, lists and
dictionaries (association lists in decoding order). -/
inductive Json where
  | str (s : String)
  | num (n : Int)
  | bool (b : Bool)
  | null
  | arr (elems : List Json)
  | obj (fields : List (String × Json))
deriving Repr

namespace Json

/-- Python truthiness of a decoded JSON value (`if not api_response`,
`if not subsidiaries`): empty containers, empty strings, zero, `False`
and `None` are falsy. -/
def truthy : Json → Bool
  | .str s => s ≠ ""
  | .num n => n ≠ 0
  | .bool b => b
  | .null => false
  | .arr elems => !elems.isEmpty
  | .obj fields => !fields.isEmpty

/-- Whether the value is a dictionary. -/
def isObj : Json → Bool
  | .obj _ => true
  | _ => false

/-- The fields of a dictionary value (or `[]` for non-dictionaries). -/
def fieldsOf : Json → List (String × Json)
  | .obj fields => fields
  | _ => []

end Json

/-- The recursive part of `pandas.json_normalize` / `nested_to_record` at
nesting level >= 1: every key `k` of the sub-dictionary is renamed to
`pre ++ "." ++ k`; dictionary values are expanded recursively in place,
all other values become one flat field.  (An empty sub-dictionary
contributes nothing, exactly as `dict.update` of an empty expansion.) -/
def flattenNested (pre : String) : List (String × Json) → List (String × Json)
  | [] => []
  | (k, Json.obj fs) :: rest =>
      flattenNested (pre ++ "." ++ k) fs ++ flattenNested pre rest
  | (k, v) :: rest => (pre ++ "." ++ k, v) :: flattenNested pre rest
termination_by l => sizeOf l

/-- `nested_to_record` at level 0, i.e. `pandas.json_normalize` applied to one
record: non-dictionary fields keep their original positions, while each
dictionary-valued key is popped and its flattened fields are appended at the
end, in key order (pandas builds `new_d` by `pop` + `update`). -/
def nestedToRecord (d : List (String × Json)) : List (String × Json) :=
  d.filter (fun p => !p.2.isObj) ++
    (d.filter (fun p => p.2.isObj)).flatMap (fun p => flattenNested p.1 p.2.fieldsOf)

/-- Keys of a flat record, in order. -/
def recordKeys (r : List (String × Json)) : List String :=
  r.map Prod.fst

/-- First-occurrence deduplication: the column order a pandas `DataFrame`
built from a list of record dictionaries uses (union of keys in order of
first appearance). -/
def firstDedup : List String → List String
  | [] => []
  | x :: rest => x :: firstDedup (rest.filter (fun y => y ≠ x))
termination_by l => l.length
decreasing_by
  simp only [List.length_cons]
  exact Nat.lt_succ_of_le (List.length_filter_le _ _)

/-- A flattened table: the `DataFrame` produced by `pd.json_normalize`,
as its column list plus the flattened records the cells are read from. -/
structure DataTable where
  columns : List String
  records : List (List (String × Json))
deriving Repr

/-- `pd.json_normalize(records)`: flatten every record, columns are the
union of flattened keys in order of first appearance. -/
def jsonNormalize (recs : List (List (String × Json))) : DataTable :=
  { columns := firstDedup ((recs.map nestedToRecord).flatMap recordKeys)
    records := recs.map nestedToRecord }

/-- `df.drop(columns=[col for col in excl if col in df.columns], errors="ignore")`:
only the names of `excl` that are present are dropped; records are untouched
(cells of dropped columns are simply never read again). -/
def dropExcluded (excl : List String) (t : DataTable) : DataTable :=
  { columns := t.columns.filter (fun c => c ∉ excl.filter (fun e => e ∈ t.columns))
    records := t.records }

/-- Python single-quote character, by code point. -/
def sq : String := (Char.ofNat 39).toString

/-- Python `str()` of a decoded JSON value.  String escaping inside `repr`
is not modelled beyond quoting: no claim involves non-scalar cell values. -/
def pyRepr : Json → String
  | .str s => sq ++ s ++ sq
  | .num n => toString n
  | .bool b => if b then "True" else "False"
  | .null => "None"
  | .arr elems =>
      "[" ++ ", ".intercalate (elems.attach.map (fun e => pyRepr e.1)) ++ "]"
  | .obj fields =>
      "\x7b" ++
        ", ".intercalate
          (fields.attach.map (fun p => sq ++ p.1.1 ++ sq ++ ": " ++ pyRepr p.1.2)) ++
        "\x7d"
termination_by j => sizeOf j
decreasing_by
  · have h := List.sizeOf_lt_of_mem e.2
    simp only [Json.arr.sizeOf_spec]
    omega
  · have h := List.sizeOf_lt_of_mem p.2
    have h2 : sizeOf p.1.2 < sizeOf p.1 := by
      obtain ⟨⟨a, b⟩, hp⟩ := p
      simp
    simp only [Json.obj.sizeOf_spec]
    omega

/-- How `to_csv` renders one cell of an `object`-dtype column: strings as
themselves, `True`/`False` for booleans, decimal for integers, the empty
string for `None` (the pandas `na_rep` default), Python `str()` for lists. -/
def renderObjCell : Json → String
  | .str s => s
  | .num n => toString n
  | .bool b => if b then "True" else "False"
  | .null => ""
  | v => pyRepr v

/-- Whether the value is a number. -/
def Json.isNum : Json → Bool
  | .num _ => true
  | _ => false

/-- The non-`None` values a column holds across the records (pandas turns
`None` into `NaN`, so it counts as missing for dtype inference). -/
def nonNullValues (recs : List (List (String × Json))) (c : String) : List Json :=
  recs.filterMap (fun r =>
    match r.lookup c with
    | some Json.null => none
    | some v => some v
    | none => none)

/-- Column dtype inference, numeric side: a column whose present values are
all numbers (and there is at least one) gets dtype `int64` when complete,
`float64` when some record misses it. -/
def colNumeric (recs : List (List (String × Json))) (c : String) : Bool :=
  !(nonNullValues recs c).isEmpty && (nonNullValues recs c).all Json.isNum

/-- Whether every record has a non-`None` value for the column. -/
def colComplete (recs : List (List (String × Json))) (c : String) : Bool :=
  recs.all (fun r =>
    match r.lookup c with
    | some Json.null => false
    | some _ => true
    | none => false)

/-- The text `str(float(n))` a cell of a float64 column holds.  Byte-exact
for |n| ≤ 2^53: there `float(n)` is the integer itself, and the Python
shortest repr of an integral double below 10^16 is its exact decimal
followed by `.0`.  For |n| > 2^53 the program writes the shortest repr of
the nearest double instead (rounded digits, exponent form from 10^16 on),
which this definition does not reproduce — see the modelling notes; every
claim about a float64 cell text carries the |n| ≤ 2^53 bound, so only the
byte-exact region backs a theorem. -/
def floatCellText (n : Int) : String :=
  toString n ++ ".0"

/-- The text `to_csv` writes for the cell of column `c` (before CSV quoting):
in a numeric column, `n` under dtype `int64` and `floatCellText n` under
`float64`; otherwise the `object`-dtype rendering; missing cells are
empty. -/
def renderCell (recs : List (List (String × Json))) (c : String) : Option Json → String :=
  fun ov =>
    if colNumeric recs c then
      match ov with
      | some (Json.num n) => if colComplete recs c then toString n else floatCellText n
      | _ => ""
    else
      match ov with
      | some v => renderObjCell v
      | none => ""

/-- The data rows of the table as cell texts, one row per record in source
order, one cell per column in column order. -/
def tableCells (t : DataTable) : List (List String) :=
  t.records.map (fun r => t.columns.map (fun c => renderCell t.records c (r.lookup c)))

/-- CSV quoting: double every quote character of a quoted field. -/
def escQuote : List Char → List Char
  | [] => []
  | c :: rest => if c = '"' then '"' :: '"' :: escQuote rest else c :: escQuote rest

/-- Characters that force `QUOTE_MINIMAL` to quote a field: the delimiter,
the quote character and line breaks. -/
def isCsvSpecial (c : Char) : Bool :=
  c = ',' || c = '"' || c = '\n' || c = '\r'

/-- Whether `QUOTE_MINIMAL` quotes the field. -/
def needsQuoting (s : List Char) : Bool := s.any isCsvSpecial

/-- One serialized CSV field. -/
def serFieldChars (s : List Char) : List Char :=
  if needsQuoting s then '"' :: (escQuote s ++ ['"']) else s

/-- One serialized CSV record: fields joined by commas. -/
def serRecordChars : List (List Char) → List Char
  | [] => []
  | [f] => serFieldChars f
  | f :: rest => serFieldChars f ++ ',' :: serRecordChars rest

/-- One serialized CSV line: the record plus the line terminator. -/
def serLineChars (fs : List (List Char)) : List Char :=
  serRecordChars fs ++ ['\n']

/-- The CSV text for a list of rows (header row included by the caller),
as `to_csv` writes it. -/
def csvString (rows : List (List String)) : String :=
  String.mk ((rows.map (fun r => serLineChars (r.map String.data))).flatten)

/-- `df.to_csv(output, index=False, encoding="utf-8")` on the table: header
row of column names, then one line per record. -/
def csvOfTable (t : DataTable) : String :=
  csvString (t.columns :: tableCells t)

/-- The `columns_to_exclude` list of `json_to_csv` (`src/get_subs.py`
lines 51-56). -/
def columnsToExcludeCsv : List String :=
  ["id", "uId", "dType", "main_parent_id", "record_update_date",
   "createdBy", "createdAt", "updatedBy", "updatedAt", "version",
   "active", "archived", "domains", "validatedAt", "_rid", "_self",
   "_etag", "_attachments", "_ts"]

/-- The `columns_to_exclude` list of `main` for the preview
(`src/get_subs.py` lines 126-131): the code keeps a second, separate copy. -/
def columnsToExcludePreview : List String :=
  ["id", "uId", "dType", "main_parent_id", "record_update_date",
   "createdBy", "createdAt", "updatedBy", "updatedAt", "version",
   "active", "archived", "domains", "validatedAt", "_rid", "_self",
   "_etag", "_attachments", "_ts"]

/-- The flatten-then-drop pipeline of `json_to_csv`. -/
def csvTransform (recs : List (List (String × Json))) : DataTable :=
  dropExcluded columnsToExcludeCsv (jsonNormalize recs)

/-- The flatten-then-drop pipeline of `main`, applied for the preview. -/
def previewTransform (recs : List (List (String × Json))) : DataTable :=
  dropExcluded columnsToExcludePreview (jsonNormalize recs)

/-- Observable result of `json_to_csv`. The three notice constructors all
return `(None, None)` in Python; they are distinguished by the banner the
user sees: `noticeError` is `st.error("Invalid or empty response from the
API")`, `noticeEmpty` is `st.warning("No subsidiaries found for the given
criteria")`, `noticeConvertError` is the `except`-branch
`st.error("Error converting data to CSV: ...")`. -/
inductive CsvOutcome where
  | noticeError
  | noticeEmpty
  | noticeConvertError
  | csv (data : String)
deriving Repr, DecidableEq

/-- Python `api_response["status"] != "success"` for a decoded JSON value:
only the string `"success"` compares equal. -/
def Json.neSuccess : Json → Bool
  | .str s => s != "success"
  | _ => true

/-- Contiguous-substring test on character lists (Python `"status" in s`
for strings). -/
def occursIn (pat : List Char) : List Char → Bool
  | [] => pat.isEmpty
  | c :: rest => pat.isPrefixOf (c :: rest) || occursIn pat rest

/-- `json_to_csv(api_response, ...)` (`src/get_subs.py` lines 31-77),
with the filename (timestamp-dependent, claimed by nothing) elided.
Faithful branch mapping:
* `api_response` `None` or falsy, `"status"` missing, or status value not
  equal to `"success"` → the `st.error` branch, `(None, None)`;
* on non-dictionary envelopes, the Python membership / indexing raises
  `TypeError` inside the condition for truthy numbers and booleans, for
  strings containing `"status"` and for lists containing `"status"`;
  the broad `except` turns that into the convert-error notice;
* empty (falsy) `subsidiaries` → the `st.warning` branch, before any
  flattening;
* a list of dictionaries (or a single dictionary, which `json_normalize`
  accepts as one record) → flatten, drop the excluded columns, serialize;
* any other `subsidiaries` shape makes `json_normalize` raise, caught by
  the `except` branch. -/
def jsonToCsv (apiResponse : Option Json) : CsvOutcome :=
  match apiResponse with
  | none => .noticeError
  | some j =>
    if !j.truthy then .noticeError
    else
      match j with
      | Json.obj fields =>
        match fields.lookup "status" with
        | none => .noticeError
        | some v =>
          if v.neSuccess then .noticeError
          else
            let subs := (fields.lookup "subsidiaries").getD (Json.arr [])
            if !subs.truthy then .noticeEmpty
            else
              match subs with
              | Json.arr elems =>
                  if elems.all Json.isObj then
                    .csv (csvOfTable (csvTransform (elems.map Json.fieldsOf)))
                  else .noticeConvertError
              | Json.obj fs => .csv (csvOfTable (csvTransform [fs]))
              | _ => .noticeConvertError
      | Json.str s =>
          if occursIn "status".data s.data then .noticeConvertError else .noticeError
      | Json.arr elems =>
          if elems.any (fun e =>
              match e with
              | Json.str s => s == "status"
              | _ => false)
          then .noticeConvertError else .noticeError
      | _ => .noticeConvertError

/-- Abstract outcome of `requests.get(base_url, params=...)`: either the
request raises (network error, redirect loop, timeout — any
`RequestException` before a response exists), or a response with an HTTP
status code and a body that is well-formed JSON (`some`) or malformed
(`none`). -/
inductive FetchOutcome where
  | transportError
  | response (status : Nat) (body : Option Json)

/-- `get_subsidiaries(parent_name)` (`src/get_subs.py` lines 15-29) as a
function of the transport outcome.  `response.raise_for_status()` raises
exactly for status codes 400-599; a malformed body makes `response.json()`
raise `requests.exceptions.JSONDecodeError`; both, like a transport error,
are caught by `except requests.exceptions.RequestException`, which shows
`st.error("Error fetching data: ...")` and returns `None`.  The result is
`none` exactly when the error banner was shown. -/
def getSubsidiaries : FetchOutcome → Option Json
  | .transportError => none
  | .response code body => if 400 ≤ code ∧ code ≤ 599 then none else body

/-- `df_preview.head()`: the first five rows; columns unchanged. -/
def headTable (t : DataTable) : DataTable :=
  { columns := t.columns, records := t.records.take 5 }

/-- The preview table `main` computes from the envelope
(`src/get_subs.py` lines 123-132): `pd.json_normalize(data.get(
"subsidiaries", []))` followed by the own copy `main` keeps of the column drop.
`main` only reaches this code after `json_to_csv` produced CSV bytes, so
`subsidiaries` is a non-empty list of dictionaries or a single dictionary;
the final fallback is never evaluated on reachable inputs. -/
def previewOfEnvelope (j : Json) : DataTable :=
  match (j.fieldsOf.lookup "subsidiaries").getD (Json.arr []) with
  | Json.arr elems => previewTransform (elems.map Json.fieldsOf)
  | Json.obj fs => previewTransform [fs]
  | _ => previewTransform []

/-- What one click of "Get Subsidiaries" renders (`main`,
`src/get_subs.py` lines 79-134): `warnNoName` for an empty input,
`nothingShown` when `get_subsidiaries` returned `None` (its error banner
was already shown) or a falsy envelope, `noCsvShown` when `json_to_csv`
returned no CSV (its own banner was shown), and otherwise the success
banner with `data.get("count", 0)`, the download of the CSV bytes, and
the preview of the first rows. -/
inductive MainRender where
  | warnNoName
  | nothingShown
  | noCsvShown
  | shows (count : Json) (csv : String) (preview : DataTable)
deriving Repr

/-- One interaction cycle of `main` as a function of the typed name and
the transport outcome. -/
def mainStep (parentName : String) (outcome : FetchOutcome) : MainRender :=
  if parentName = "" then .warnNoName
  else
    match getSubsidiaries outcome with
    | none => .nothingShown
    | some data =>
      if !data.truthy then .nothingShown
      else
        match jsonToCsv (some data) with
        | CsvOutcome.csv s =>
            if s != "" then
              .shows ((data.fieldsOf.lookup "count").getD (Json.num 0)) s
                (headTable (previewOfEnvelope data))
            else .noCsvShown
        | _ => .noCsvShown

/-! ## A standard CSV reader

The round-trip and row-count properties of the spec speak about "parsing the
produced CSV back into rows and columns".  The reader below implements
RFC-4180 reading for the dialect `to_csv` writes: comma delimiter, `"`
quoting with doubled quotes, `\n` line terminator.  `parseRecordChars` and
`parseCsvChars` carry fuel to totalize the loops; the entry point supplies
more fuel than any input can consume. -/

mutual

/-- Read the body of a quoted field: a doubled quote is a literal quote,
a single quote ends the field. -/
def parseQuoted (acc : List Char) : List Char → List Char × List Char
  | [] => (acc, [])
  | c :: rest =>
    if c = '"' then parseQuoteEnd acc rest else parseQuoted (acc ++ [c]) rest
termination_by l => l.length

/-- Just after a quote inside a quoted field: a second quote means a literal
quote and the field continues; anything else ends the field. -/
def parseQuoteEnd (acc : List Char) : List Char → List Char × List Char
  | [] => (acc, [])
  | c :: rest =>
    if c = '"' then parseQuoted (acc ++ ['"']) rest else (acc, c :: rest)
termination_by l => l.length

end

/-- Read an unquoted field: everything up to the next comma or newline. -/
def parseUnquoted (acc : List Char) : List Char → List Char × List Char
  | [] => (acc, [])
  | c :: rest =>
    if c = ',' ∨ c = '\n' then (acc, c :: rest)
    else parseUnquoted (acc ++ [c]) rest

/-- Read one field, quoted or unquoted. -/
def parseFieldChars : List Char → List Char × List Char
  | [] => ([], [])
  | c :: rest =>
    if c = '"' then parseQuoted [] rest else parseUnquoted [] (c :: rest)

/-- Read one record: fields separated by commas, ended by a newline (or by
the end of input). -/
def parseRecordChars : Nat → List Char → List (List Char) × List Char
  | 0, cs => ([], cs)
  | fuel + 1, cs =>
    let p := parseFieldChars cs
    match p.2 with
    | c :: rest2 =>
      if c = ',' then
        let q := parseRecordChars fuel rest2
        (p.1 :: q.1, q.2)
      else if c = '\n' then ([p.1], rest2)
      else ([p.1], c :: rest2)
    | [] => ([p.1], [])

/-- Read all records of the input. -/
def parseCsvChars : Nat → List Char → List (List (List Char))
  | 0, _ => []
  | fuel + 1, cs =>
    if cs.isEmpty then []
    else
      let p := parseRecordChars (cs.length + 1) cs
      p.1 :: parseCsvChars fuel p.2

/-- Read a CSV text into rows of field strings. -/
def parseCsv (s : String) : List (List String) :=
  (parseCsvChars (s.data.length + 1) s.data).map (fun r => r.map String.mk)

/-- An empty record serializes to a bare newline, which reads back as one
empty field: the shape a CSV reader reports for each row of a zero-column
table. -/
def normRow (r : List (List Char)) : List (List Char) :=
  if r.isEmpty then [[]] else r

/-- A row as a CSV reader reports it: a zero-column row reads back as one
empty field, any other row reads back as itself. -/
def padRow (r : List String) : List String :=
  if r.isEmpty then [""] else r

theorem parseQuoted_escQuote (s : List Char) :
    ∀ (acc : List Char) (d : Char) (rest : List Char), d ≠ '"' →
      parseQuoted acc (escQuote s ++ '"' :: d :: rest) = (acc ++ s, d :: rest) := by
  induction s with
  | nil =>
      intro acc d rest hd
      simp [escQuote, parseQuoted, parseQuoteEnd, hd]
  | cons c t ih =>
      intro acc d rest hd
      by_cases hc : c = '"'
      · subst hc
        have h1 : escQuote ('"' :: t) ++ '"' :: d :: rest
            = '"' :: '"' :: (escQuote t ++ '"' :: d :: rest) := by simp [escQuote]
        have h2 : parseQuoted acc ('"' :: '"' :: (escQuote t ++ '"' :: d :: rest))
            = parseQuoted (acc ++ ['"']) (escQuote t ++ '"' :: d :: rest) := by
          simp [parseQuoted, parseQuoteEnd]
        rw [h1, h2, ih _ d rest hd]
        simp
      · have h1 : escQuote (c :: t) ++ '"' :: d :: rest
            = c :: (escQuote t ++ '"' :: d :: rest) := by simp [escQuote, hc]
        have h2 : parseQuoted acc (c :: (escQuote t ++ '"' :: d :: rest))
            = parseQuoted (acc ++ [c]) (escQuote t ++ '"' :: d :: rest) := by
          simp [parseQuoted, hc]
        rw [h1, h2, ih _ d rest hd]
        simp

theorem parseUnquoted_clean (s : List Char) :
    ∀ (acc : List Char) (d : Char) (rest : List Char),
      (∀ c ∈ s, isCsvSpecial c = false) → (d = ',' ∨ d = '\n') →
      parseUnquoted acc (s ++ d :: rest) = (acc ++ s, d :: rest) := by
  induction s with
  | nil =>
      intro acc d rest _ hd
      simp [parseUnquoted, hd]
  | cons c t ih =>
      intro acc d rest hs hd
      have hc := hs c (by simp)
      have hneg : ¬(c = ',' ∨ c = '\n') := by
        simp only [isCsvSpecial, Bool.or_eq_false_iff, decide_eq_false_iff_not] at hc
        tauto
      have h2 : parseUnquoted acc ((c :: t) ++ d :: rest)
          = parseUnquoted (acc ++ [c]) (t ++ d :: rest) := by
        simp [parseUnquoted, hneg]
      rw [h2, ih _ d rest (fun x hx => hs x (by simp [hx])) hd]
      simp

theorem parseFieldChars_ser (s : List Char) (d : Char) (rest : List Char)
    (hd : d = ',' ∨ d = '\n') :
    parseFieldChars (serFieldChars s ++ d :: rest) = (s, d :: rest) := by
  have hdq : d ≠ '"' := by rcases hd with h | h <;> simp [h]
  by_cases hq : needsQuoting s
  · have h1 : serFieldChars s ++ d :: rest
        = '"' :: (escQuote s ++ '"' :: d :: rest) := by
      simp [serFieldChars, hq]
    have h2 : parseFieldChars ('"' :: (escQuote s ++ '"' :: d :: rest))
        = parseQuoted [] (escQuote s ++ '"' :: d :: rest) := by
      simp [parseFieldChars]
    rw [h1, h2, parseQuoted_escQuote s [] d rest hdq]
    simp
  · have hclean : ∀ c ∈ s, isCsvSpecial c = false := by
      intro c hc
      by_contra hcs
      exact hq (List.any_eq_true.2 ⟨c, hc, by simpa using hcs⟩)
    have h1 : serFieldChars s = s := by simp [serFieldChars, hq]
    rw [h1]
    cases s with
    | nil =>
        simp [parseFieldChars, hdq, parseUnquoted, hd]
    | cons c t =>
        have hc := hclean c (by simp)
        have hcq : c ≠ '"' := by
          simp only [isCsvSpecial, Bool.or_eq_false_iff, decide_eq_false_iff_not] at hc
          tauto
        have h2 : parseFieldChars ((c :: t) ++ d :: rest)
            = parseUnquoted [] ((c :: t) ++ d :: rest) := by
          simp [parseFieldChars, hcq]
        rw [h2]
        simpa using parseUnquoted_clean (c :: t) [] d rest hclean hd

theorem length_le_serRecordChars (fs : List (List Char)) :
    fs.length ≤ (serRecordChars fs).length + 1 := by
  induction fs with
  | nil => simp
  | cons f rest ih =>
      cases rest with
      | nil => simp [serRecordChars]
      | cons g t =>
          simp only [serRecordChars, List.length_cons, List.length_append] at ih ⊢
          omega

theorem parseRecordChars_ser (fs : List (List Char)) :
    ∀ (fuel : Nat) (rest : List Char), fs.length < fuel →
      parseRecordChars fuel (serRecordChars fs ++ '\n' :: rest) = (normRow fs, rest) := by
  induction fs with
  | nil =>
      intro fuel rest hf
      obtain ⟨f2, rfl⟩ : ∃ f2, fuel = f2 + 1 := ⟨fuel - 1, by omega⟩
      simp [serRecordChars, parseRecordChars, parseFieldChars, parseUnquoted, normRow]
  | cons f rt ih =>
      intro fuel rest hf
      obtain ⟨f2, rfl⟩ : ∃ f2, fuel = f2 + 1 := ⟨fuel - 1, by omega⟩
      cases rt with
      | nil =>
          have hp := parseFieldChars_ser f '\n' rest (Or.inr rfl)
          simp [serRecordChars, parseRecordChars, hp, normRow]
      | cons g t =>
          have hstep : serRecordChars (f :: g :: t) ++ '\n' :: rest
              = serFieldChars f ++ ',' :: (serRecordChars (g :: t) ++ '\n' :: rest) := by
            simp [serRecordChars]
          have hp := parseFieldChars_ser f ',' (serRecordChars (g :: t) ++ '\n' :: rest)
            (Or.inl rfl)
          have hih := ih f2 rest (by simp only [List.length_cons] at hf ⊢; omega)
          rw [hstep]
          simp [parseRecordChars, hp, hih, normRow]

theorem length_le_flatten_serLines (rows : List (List (List Char))) :
    rows.length ≤ ((rows.map serLineChars).flatten).length := by
  induction rows with
  | nil => simp
  | cons r rt ih =>
      simp only [List.map_cons, List.flatten_cons, List.length_append, List.length_cons,
        serLineChars, List.length_append] at ih ⊢
      omega

theorem parseCsvChars_ser (rows : List (List (List Char))) :
    ∀ (fuel : Nat), rows.length ≤ fuel →
      parseCsvChars fuel ((rows.map serLineChars).flatten) = rows.map normRow := by
  induction rows with
  | nil =>
      intro fuel _
      cases fuel <;> simp [parseCsvChars]
  | cons r rt ih =>
      intro fuel hf
      obtain ⟨f2, rfl⟩ : ∃ f2, fuel = f2 + 1 :=
        ⟨fuel - 1, by simp only [List.length_cons] at hf; omega⟩
      have hcs : (((r :: rt).map serLineChars).flatten)
          = serRecordChars r ++ '\n' :: ((rt.map serLineChars).flatten) := by
        simp [serLineChars]
      have hne : (serRecordChars r ++ '\n' :: ((rt.map serLineChars).flatten)).isEmpty
          = false := by
        cases h : serRecordChars r <;> simp [h]
      have hlen : r.length
          < (serRecordChars r ++ '\n' :: ((rt.map serLineChars).flatten)).length + 1 := by
        have h1 := length_le_serRecordChars r
        simp only [List.length_append, List.length_cons]
        omega
      have hrec := parseRecordChars_ser r _ ((rt.map serLineChars).flatten) hlen
      have hih := ih f2 (by simp only [List.length_cons] at hf; omega)
      rw [hcs]
      have hunfold : parseCsvChars (f2 + 1)
            (serRecordChars r ++ '\n' :: ((rt.map serLineChars).flatten))
          = (parseRecordChars
                ((serRecordChars r ++ '\n' :: ((rt.map serLineChars).flatten)).length + 1)
                (serRecordChars r ++ '\n' :: ((rt.map serLineChars).flatten))).1
            :: parseCsvChars f2
              (parseRecordChars
                ((serRecordChars r ++ '\n' :: ((rt.map serLineChars).flatten)).length + 1)
                (serRecordChars r ++ '\n' :: ((rt.map serLineChars).flatten))).2 := by
        simp only [parseCsvChars, hne, Bool.false_eq_true, if_false]
      rw [hunfold, hrec, hih]
      simp

theorem mk_data (s : String) : String.mk s.data = s := rfl

theorem map_mk_map_data (r : List String) : (r.map String.data).map String.mk = r := by
  induction r with
  | nil => rfl
  | cons a t ih =>
      simp only [List.map_cons]
      rw [ih, mk_data]

theorem parseCsv_csvString (rows : List (List String)) :
    parseCsv (csvString rows)
      = rows.map (fun r => if r.isEmpty then [""] else r) := by
  unfold parseCsv csvString
  have hdata : (String.mk ((rows.map (fun r => serLineChars (r.map String.data))).flatten)).data
      = (((rows.map (fun r => r.map String.data)).map serLineChars).flatten) := by
    rw [List.map_map]
    rfl
  rw [hdata]
  rw [parseCsvChars_ser _ _ (by
    have h := length_le_flatten_serLines (rows.map (fun r => r.map String.data))
    simp only [List.length_map] at h
    exact Nat.le_succ_of_le (by simpa using h))]
  rw [List.map_map, List.map_map]
  apply List.map_congr_left
  intro r _
  simp only [Function.comp_apply, normRow]
  cases r with
  | nil => simp
  | cons a t =>
      have h := map_mk_map_data (a :: t)
      simpa using h

theorem parseCsv_csvOfTable (t : DataTable) :
    parseCsv (csvOfTable t) = padRow t.columns :: (tableCells t).map padRow := by
  unfold csvOfTable padRow
  rw [parseCsv_csvString]
  simp

/-! ## Helper lemmas about the table pipeline -/

theorem mem_firstDedup (l : List String) (x : String) :
    x ∈ firstDedup l ↔ x ∈ l := by
  induction l using firstDedup.induct with
  | case1 => simp [firstDedup]
  | case2 y rest ih =>
      rw [firstDedup]
      by_cases hx : x = y
      · simp [hx]
      · simp only [List.mem_cons, hx, false_or]
        rw [ih]
        simp [List.mem_filter, hx]

theorem mem_jsonNormalize_columns (recs : List (List (String × Json))) (c : String) :
    c ∈ (jsonNormalize recs).columns ↔ ∃ r ∈ recs, c ∈ recordKeys (nestedToRecord r) := by
  unfold jsonNormalize
  rw [mem_firstDedup]
  simp only [List.mem_flatMap, List.mem_map]
  constructor
  · rintro ⟨fr, ⟨r, hr, rfl⟩, hc⟩
    exact ⟨r, hr, hc⟩
  · rintro ⟨r, hr, hc⟩
    exact ⟨nestedToRecord r, ⟨r, hr, rfl⟩, hc⟩

theorem mem_dropExcluded_columns (excl : List String) (t : DataTable) (c : String) :
    c ∈ (dropExcluded excl t).columns ↔ c ∈ t.columns ∧ c ∉ excl := by
  unfold dropExcluded
  simp only [List.mem_filter, decide_not, Bool.not_eq_true', decide_eq_false_iff_not,
    decide_eq_true_eq]
  tauto

theorem dropExcluded_columns_eq (excl : List String) (t : DataTable) :
    (dropExcluded excl t).columns = t.columns.filter (fun c => c ∉ excl) := by
  unfold dropExcluded
  apply List.filter_congr
  intro c hc
  by_cases he : c ∈ excl
  · simp [List.mem_filter, he, hc]
  · simp [List.mem_filter, he]

theorem jsonToCsv_success_eq (fields : List (String × Json)) (recs : List Json)
    (hstatus : fields.lookup "status" = some (Json.str "success"))
    (hsubs : fields.lookup "subsidiaries" = some (Json.arr recs))
    (hne : recs ≠ []) (hobj : recs.all Json.isObj = true) :
    jsonToCsv (some (Json.obj fields))
      = CsvOutcome.csv (csvOfTable (csvTransform (recs.map Json.fieldsOf))) := by
  have hfne : fields ≠ [] := by
    intro h
    subst h
    simp [List.lookup] at hstatus
  have htr : (Json.obj fields).truthy = true := by
    simp [Json.truthy, hfne]
  have hrne : recs.isEmpty = false := by
    cases recs with
    | nil => exact absurd rfl hne
    | cons a t => rfl
  simp [jsonToCsv, htr, hstatus, Json.neSuccess, hsubs, Json.truthy, hrne, hobj, hfne]

theorem csvOfTable_ne_empty (t : DataTable) : csvOfTable t ≠ "" := by
  unfold csvOfTable csvString
  intro h
  have hdata := congrArg String.data h
  simp only [serLineChars] at hdata
  simp at hdata

theorem tableExt (a b : DataTable) (h1 : a.columns = b.columns)
    (h2 : a.records = b.records) : a = b := by
  cases a
  cases b
  cases h1
  cases h2
  rfl

theorem dropExcluded_idem (excl : List String) (t : DataTable) :
    dropExcluded excl (dropExcluded excl t) = dropExcluded excl t := by
  apply tableExt
  · rw [dropExcluded_columns_eq excl (dropExcluded excl t)]
    apply List.filter_eq_self.2
    intro c hc
    rw [dropExcluded_columns_eq] at hc
    have h := (List.mem_filter.1 hc).2
    simpa using h
  · rfl

/-! ## The claims -/

/-- C2: the flatten-then-drop transformation used for the preview and the
one used for the CSV export are the same function, and for any envelope the
preview table (after `head()`) and the exported table have the same column
list, so preview and export never diverge. -/
theorem claim2_preview_csv_single_policy :
    previewTransform = csvTransform ∧
    ∀ (fields : List (String × Json)) (recs : List Json),
      fields.lookup "subsidiaries" = some (Json.arr recs) →
      (headTable (previewOfEnvelope (Json.obj fields))).columns
        = (csvTransform (recs.map Json.fieldsOf)).columns := by
  constructor
  · rfl
  · intro fields recs hsubs
    simp only [previewOfEnvelope, Json.fieldsOf, hsubs, Option.getD_some, headTable,
      previewTransform, csvTransform]
    rfl

/-- Witness for C2 at a concrete envelope. -/
theorem claim2_preview_csv_single_policy_witness :
    (headTable (previewOfEnvelope (Json.obj [("status", Json.str "success"),
        ("subsidiaries", Json.arr [Json.obj [("name", Json.str "A"),
          ("id", Json.str "7")]])]))).columns
      = (csvTransform ([Json.obj [("name", Json.str "A"),
          ("id", Json.str "7")]].map Json.fieldsOf)).columns :=
  claim2_preview_csv_single_policy.2 _ _ rfl

/-- C9: applying the excluded-column filter twice yields the same table as
applying it once. -/
theorem claim9_filter_idempotent :
    ∀ (t : DataTable),
      dropExcluded columnsToExcludeCsv (dropExcluded columnsToExcludeCsv t)
        = dropExcluded columnsToExcludeCsv t :=
  fun t => dropExcluded_idem columnsToExcludeCsv t

/-- Witness for C9 at a concrete flattened table. -/
theorem claim9_filter_idempotent_witness :
    dropExcluded columnsToExcludeCsv (dropExcluded columnsToExcludeCsv
        (jsonNormalize [[("id", Json.str "1"), ("name", Json.str "A")]]))
      = dropExcluded columnsToExcludeCsv
          (jsonNormalize [[("id", Json.str "1"), ("name", Json.str "A")]]) :=
  claim9_filter_idempotent (jsonNormalize [[("id", Json.str "1"), ("name", Json.str "A")]])

/-- C5: a success envelope with an empty subsidiaries list produces no CSV:
`json_to_csv` stops with the empty-result warning before any flattening,
and `main` renders nothing beyond that notice. -/
theorem claim5_empty_list_notice :
    ∀ (fields : List (String × Json)),
      fields.lookup "status" = some (Json.str "success") →
      fields.lookup "subsidiaries" = some (Json.arr []) →
      jsonToCsv (some (Json.obj fields)) = CsvOutcome.noticeEmpty ∧
      ∀ (name : String) (o : FetchOutcome), name ≠ "" →
        getSubsidiaries o = some (Json.obj fields) →
        mainStep name o = MainRender.noCsvShown := by
  intro fields hstatus hsubs
  have hfne : fields ≠ [] := by
    intro h
    subst h
    simp [List.lookup] at hstatus
  have hcsv : jsonToCsv (some (Json.obj fields)) = CsvOutcome.noticeEmpty := by
    simp [jsonToCsv, Json.truthy, hfne, hstatus, Json.neSuccess, hsubs]
  refine ⟨hcsv, ?_⟩
  intro name o hname ho
  simp [mainStep, hname, ho, Json.truthy, hfne, hcsv]

/-- Witness for C5: the Scenario 2 envelope of the spec. -/
theorem claim5_empty_list_notice_witness :
    jsonToCsv (some (Json.obj [("status", Json.str "success"), ("count", Json.num 0),
        ("subsidiaries", Json.arr [])])) = CsvOutcome.noticeEmpty ∧
    mainStep "Acme" (FetchOutcome.response 200 (some (Json.obj [("status", Json.str "success"),
        ("count", Json.num 0), ("subsidiaries", Json.arr [])])))
      = MainRender.noCsvShown := by
  have h := claim5_empty_list_notice [("status", Json.str "success"), ("count", Json.num 0),
    ("subsidiaries", Json.arr [])] rfl rfl
  exact ⟨h.1, h.2 "Acme" (FetchOutcome.response 200 _) (by simp) rfl⟩

/-- C4 counterexample: a 304 response — a non-2xx HTTP status — with a
well-formed success body is not treated as a failure: `raise_for_status`
only raises for 400-599, so `get_subsidiaries` returns the envelope and a
CSV is produced and offered for download. -/
theorem claim4_counterexample_non2xx_csv :
    getSubsidiaries (FetchOutcome.response 304 (some (Json.obj
        [("status", Json.str "success"), ("count", Json.num 1),
         ("subsidiaries", Json.arr [Json.obj [("name", Json.str "Acme UK")]])])))
      ≠ none ∧
    mainStep "Acme" (FetchOutcome.response 304 (some (Json.obj
        [("status", Json.str "success"), ("count", Json.num 1),
         ("subsidiaries", Json.arr [Json.obj [("name", Json.str "Acme UK")]])])))
      = MainRender.shows (Json.num 1)
          (csvOfTable (csvTransform [[("name", Json.str "Acme UK")]]))
          (headTable (previewOfEnvelope (Json.obj
            [("status", Json.str "success"), ("count", Json.num 1),
             ("subsidiaries", Json.arr [Json.obj [("name", Json.str "Acme UK")]])]))) := by
  constructor
  · simp [getSubsidiaries]
  · have hget : getSubsidiaries (FetchOutcome.response 304 (some (Json.obj
        [("status", Json.str "success"), ("count", Json.num 1),
         ("subsidiaries", Json.arr [Json.obj [("name", Json.str "Acme UK")]])])))
        = some (Json.obj [("status", Json.str "success"), ("count", Json.num 1),
            ("subsidiaries", Json.arr [Json.obj [("name", Json.str "Acme UK")]])]) := by
      simp [getSubsidiaries]
    have hcsv := jsonToCsv_success_eq
      [("status", Json.str "success"), ("count", Json.num 1),
       ("subsidiaries", Json.arr [Json.obj [("name", Json.str "Acme UK")]])]
      [Json.obj [("name", Json.str "Acme UK")]] rfl rfl (by simp) rfl
    have hne := csvOfTable_ne_empty (csvTransform [[("name", Json.str "Acme UK")]])
    simp only [mainStep, hget, Json.truthy, List.isEmpty_cons, Bool.not_false,
      if_neg (by simp : ¬("Acme" : String) = "")]
    rw [show ([Json.obj [("name", Json.str "Acme UK")]].map Json.fieldsOf)
        = [[("name", Json.str "Acme UK")]] from rfl] at hcsv
    rw [hcsv]
    simp only [bne_iff_ne, ne_eq, hne, not_false_eq_true, if_true]
    rfl

/-- C4 amended: an envelope whose status field is absent or not equal to
`"success"` yields the error notice and no CSV; a transport-level error and
every HTTP error status 400-599 make `get_subsidiaries` return `None` (with
its error banner) and `main` render nothing further; statuses outside 2xx
that are not 400-599 (e.g. 304) are passed through like a success. -/
theorem claim4_failure_paths :
    (∀ (fields : List (String × Json)),
        (fields.lookup "status" = none ∨
         ∃ v, fields.lookup "status" = some v ∧ v.neSuccess = true) →
        jsonToCsv (some (Json.obj fields)) = CsvOutcome.noticeError) ∧
    getSubsidiaries FetchOutcome.transportError = none ∧
    (∀ (code : Nat) (body : Option Json), 400 ≤ code → code ≤ 599 →
        getSubsidiaries (FetchOutcome.response code body) = none) ∧
    (∀ (name : String) (o : FetchOutcome), name ≠ "" → getSubsidiaries o = none →
        mainStep name o = MainRender.nothingShown) ∧
    jsonToCsv none = CsvOutcome.noticeError := by
  refine ⟨?_, rfl, ?_, ?_, rfl⟩
  · intro fields h
    cases hf : fields with
    | nil => simp [jsonToCsv, Json.truthy]
    | cons p rest =>
        rw [← hf]
        have htr : (Json.obj fields).truthy = true := by
          simp [Json.truthy, hf]
        rcases h with hnone | ⟨v, hv, hne⟩
        · simp [jsonToCsv, htr, hnone]
        · simp [jsonToCsv, htr, hv, hne]
  · intro code body h4 h5
    simp [getSubsidiaries, h4, h5]
  · intro name o hname ho
    simp [mainStep, hname, ho]

/-- Witness for C4 amended: a status-`"error"` envelope, a 500 response,
a transport error, and the rendering after a failed fetch. -/
theorem claim4_failure_paths_witness :
    jsonToCsv (some (Json.obj [("status", Json.str "error")])) = CsvOutcome.noticeError ∧
    getSubsidiaries (FetchOutcome.response 500 (some Json.null)) = none ∧
    mainStep "Acme" FetchOutcome.transportError = MainRender.nothingShown := by
  have h := claim4_failure_paths
  refine ⟨h.1 [("status", Json.str "error")] (Or.inr ⟨Json.str "error", rfl, rfl⟩), ?_, ?_⟩
  · exact h.2.2.1 500 (some Json.null) (by omega) (by omega)
  · exact h.2.2.2.1 "Acme" FetchOutcome.transportError (by simp) h.2.1

/-- C6 counterexample: a 300 response — non-2xx — with a well-formed JSON
body is not reported as a failure: `get_subsidiaries` returns the parsed
envelope instead of the `None` failure signal. -/
theorem claim6_counterexample_non2xx_passthrough :
    getSubsidiaries (FetchOutcome.response 300 (some (Json.obj
        [("status", Json.str "error")])))
      = some (Json.obj [("status", Json.str "error")]) ∧
    getSubsidiaries (FetchOutcome.response 300 (some (Json.obj
        [("status", Json.str "error")]))) ≠ none := by
  constructor
  · simp [getSubsidiaries]
  · simp [getSubsidiaries]

/-- C6 amended: a network/transport error, an HTTP error status 400-599,
and a response body that is malformed JSON (whatever the status) each make
`get_subsidiaries` show its error banner and return the `None` failure
signal, short-circuiting the pipeline; non-2xx statuses outside 400-599
with a well-formed body are passed through. -/
theorem claim6_fetch_failures_reported :
    getSubsidiaries FetchOutcome.transportError = none ∧
    (∀ (code : Nat) (body : Option Json), 400 ≤ code → code ≤ 599 →
        getSubsidiaries (FetchOutcome.response code body) = none) ∧
    (∀ (code : Nat), getSubsidiaries (FetchOutcome.response code none) = none) := by
  refine ⟨rfl, ?_, ?_⟩
  · intro code body h4 h5
    simp [getSubsidiaries, h4, h5]
  · intro code
    show (if 400 ≤ code ∧ code ≤ 599 then none else (none : Option Json)) = none
    split <;> rfl

/-- Witness for C6 amended: a 404, a malformed 200 body, and a transport
error all return the failure signal. -/
theorem claim6_fetch_failures_reported_witness :
    getSubsidiaries FetchOutcome.transportError = none ∧
    getSubsidiaries (FetchOutcome.response 404 (some (Json.str "oops"))) = none ∧
    getSubsidiaries (FetchOutcome.response 200 none) = none := by
  have h := claim6_fetch_failures_reported
  exact ⟨h.1, h.2.1 404 (some (Json.str "oops")) (by omega) (by omega), h.2.2 200⟩

/-- C1: an excluded column name that occurs as a key of some subsidiary
record appears neither in the columns of the exported table, nor in the
columns of the preview table, nor in the header row a CSV reader sees; and dropping a
column name that is absent from the data is a no-op, not an error. -/
theorem claim1_excluded_never_in_output :
    (∀ (recs : List (List (String × Json))) (e : String),
        e ∈ columnsToExcludeCsv →
        (∃ r ∈ recs, e ∈ recordKeys r) →
        e ∉ (csvTransform recs).columns ∧
        e ∉ (previewTransform recs).columns ∧
        e ∉ (parseCsv (csvOfTable (csvTransform recs))).getD 0 []) ∧
    (∀ (t : DataTable) (excl : List String) (name : String), name ∉ t.columns →
        dropExcluded (name :: excl) t = dropExcluded excl t) := by
  constructor
  · intro recs e he _hkey
    have h1 : e ∉ (csvTransform recs).columns := by
      intro hmem
      exact ((mem_dropExcluded_columns _ _ _).1 hmem).2 he
    have h2 : e ∉ (previewTransform recs).columns := by
      intro hmem
      exact ((mem_dropExcluded_columns _ _ _).1 hmem).2 he
    refine ⟨h1, h2, ?_⟩
    rw [parseCsv_csvOfTable]
    have hne : e ≠ "" := by
      have hall : ∀ x ∈ columnsToExcludeCsv, x ≠ "" := by decide
      exact hall e he
    simp only [List.getD_cons_zero, padRow]
    by_cases hc : (csvTransform recs).columns.isEmpty
    · rw [if_pos hc]
      simp [hne]
    · rw [if_neg hc]
      exact h1
  · intro t excl name hname
    refine tableExt _ _ ?_ rfl
    unfold dropExcluded
    have hfilter : (name :: excl).filter (fun e => e ∈ t.columns)
        = excl.filter (fun e => e ∈ t.columns) := by
      rw [List.filter_cons]
      simp [hname]
    rw [hfilter]

/-- Witness for C1: the record has keys `id` and `name`; `id` is excluded
everywhere, and dropping the absent name `zzz` changes nothing. -/
theorem claim1_excluded_never_in_output_witness :
    ("id" ∉ (csvTransform [[("id", Json.str "1"), ("name", Json.str "A")]]).columns ∧
     "id" ∉ (previewTransform [[("id", Json.str "1"), ("name", Json.str "A")]]).columns ∧
     "id" ∉ (parseCsv (csvOfTable
        (csvTransform [[("id", Json.str "1"), ("name", Json.str "A")]]))).getD 0 []) ∧
    dropExcluded ("zzz" :: columnsToExcludeCsv)
        (DataTable.mk ["name"] [[("name", Json.str "A")]])
      = dropExcluded columnsToExcludeCsv
          (DataTable.mk ["name"] [[("name", Json.str "A")]]) :=
  ⟨claim1_excluded_never_in_output.1 [[("id", Json.str "1"), ("name", Json.str "A")]] "id"
      (by decide) ⟨[("id", Json.str "1"), ("name", Json.str "A")], by simp, by decide⟩,
   claim1_excluded_never_in_output.2 (DataTable.mk ["name"] [[("name", Json.str "A")]])
      columnsToExcludeCsv "zzz" (by decide)⟩

/-- C7: a record with a nested object flattens to dotted-path columns
(`name`, `address.city` for the Scenario 4 record of the spec); the column set
of the flattened table is the union of the flattened keys across all
records; and the cell of a record that misses a column renders blank. -/
theorem claim7_dotted_flatten_union_blank :
    recordKeys (nestedToRecord [("name", Json.str "Acme DE"),
        ("address", Json.obj [("city", Json.str "Berlin")])])
      = ["name", "address.city"] ∧
    (jsonNormalize [[("name", Json.str "Acme DE"),
        ("address", Json.obj [("city", Json.str "Berlin")])]]).columns
      = ["name", "address.city"] ∧
    (∀ (recs : List (List (String × Json))) (c : String),
        c ∈ (jsonNormalize recs).columns ↔
          ∃ r ∈ recs, c ∈ recordKeys (nestedToRecord r)) ∧
    (∀ (recs : List (List (String × Json))) (r : List (String × Json)) (c : String),
        (nestedToRecord r).lookup c = none →
        renderCell recs c ((nestedToRecord r).lookup c) = "") := by
  refine ⟨?_, ?_, mem_jsonNormalize_columns, ?_⟩
  · simp [nestedToRecord, flattenNested, recordKeys, Json.isObj, Json.fieldsOf]
  · simp [jsonNormalize, nestedToRecord, flattenNested, recordKeys, Json.isObj,
      Json.fieldsOf, firstDedup]
  · intro recs r c h
    rw [h]
    unfold renderCell
    split <;> rfl

/-- Witness for C7 at concrete data: the Scenario 4 record, the union
membership at one column, and a blank missing cell. -/
theorem claim7_dotted_flatten_union_blank_witness :
    recordKeys (nestedToRecord [("name", Json.str "Acme DE"),
        ("address", Json.obj [("city", Json.str "Berlin")])])
      = ["name", "address.city"] ∧
    ("b" ∈ (jsonNormalize [[("a", Json.str "1")], [("b", Json.str "2")]]).columns ↔
      ∃ r ∈ [[("a", Json.str "1")], [("b", Json.str "2")]],
        "b" ∈ recordKeys (nestedToRecord r)) ∧
    renderCell [] "x" ((nestedToRecord ([] : List (String × Json))).lookup "x") = "" :=
  ⟨claim7_dotted_flatten_union_blank.1,
   claim7_dotted_flatten_union_blank.2.2.1 [[("a", Json.str "1")], [("b", Json.str "2")]] "b",
   claim7_dotted_flatten_union_blank.2.2.2 [] [] "x" rfl⟩

/-- C10 (implicit): on a successful non-empty fetch, the success banner
shows the `count` field of the envelope verbatim (`data.get("count", 0)`), not
the number of exported rows; the CSV has exactly `len(subsidiaries)` data
rows, so whenever `count` differs from `len(subsidiaries)` the displayed
number and the exported row count disagree. -/
theorem claim10_count_banner_verbatim :
    ∀ (fields : List (String × Json)) (recs : List Json) (m : Int) (name : String),
      name ≠ "" →
      fields.lookup "status" = some (Json.str "success") →
      fields.lookup "subsidiaries" = some (Json.arr recs) →
      fields.lookup "count" = some (Json.num m) →
      recs ≠ [] → recs.all Json.isObj = true →
      mainStep name (FetchOutcome.response 200 (some (Json.obj fields)))
        = MainRender.shows (Json.num m)
            (csvOfTable (csvTransform (recs.map Json.fieldsOf)))
            (headTable (previewOfEnvelope (Json.obj fields))) ∧
      (parseCsv (csvOfTable (csvTransform (recs.map Json.fieldsOf)))).length
        = recs.length + 1 ∧
      (m ≠ (recs.length : Int) → Json.num m ≠ Json.num (recs.length : Int)) := by
  intro fields recs m name hname hstatus hsubs hcount hrne hobj
  have hfne : fields ≠ [] := by
    intro h
    subst h
    simp [List.lookup] at hstatus
  have hget : getSubsidiaries (FetchOutcome.response 200 (some (Json.obj fields)))
      = some (Json.obj fields) := by
    simp [getSubsidiaries]
  have hcsv := jsonToCsv_success_eq fields recs hstatus hsubs hrne hobj
  have hne2 := csvOfTable_ne_empty (csvTransform (recs.map Json.fieldsOf))
  refine ⟨?_, ?_, ?_⟩
  · have htr : (Json.obj fields).truthy = true := by
      simp [Json.truthy, hfne]
    simp only [mainStep, if_neg hname, hget, htr, Bool.not_true, Bool.false_eq_true,
      if_false, hcsv, bne_iff_ne, ne_eq, hne2, not_false_eq_true, if_true]
    simp [Json.fieldsOf, hcount]
  · rw [parseCsv_csvOfTable]
    simp [tableCells, csvTransform, dropExcluded, jsonNormalize]
  · intro hm heq
    injection heq with h2
    exact hm h2

/-- Witness for C10: a count of 5 displayed over a single exported row. -/
theorem claim10_count_banner_verbatim_witness :
    mainStep "Acme" (FetchOutcome.response 200 (some (Json.obj
        [("status", Json.str "success"), ("count", Json.num 5),
         ("subsidiaries", Json.arr [Json.obj [("name", Json.str "A")]])])))
      = MainRender.shows (Json.num 5)
          (csvOfTable (csvTransform ([Json.obj [("name", Json.str "A")]].map Json.fieldsOf)))
          (headTable (previewOfEnvelope (Json.obj
            [("status", Json.str "success"), ("count", Json.num 5),
             ("subsidiaries", Json.arr [Json.obj [("name", Json.str "A")]])]))) ∧
    (parseCsv (csvOfTable (csvTransform
        ([Json.obj [("name", Json.str "A")]].map Json.fieldsOf)))).length = 1 + 1 ∧
    Json.num 5 ≠ Json.num ((1 : Nat) : Int) := by
  have h := claim10_count_banner_verbatim
    [("status", Json.str "success"), ("count", Json.num 5),
     ("subsidiaries", Json.arr [Json.obj [("name", Json.str "A")]])]
    [Json.obj [("name", Json.str "A")]] 5 "Acme" (by simp) rfl rfl rfl (by simp) rfl
  exact ⟨h.1, h.2.1, h.2.2 (by decide)⟩

/-- C3: for a success envelope with a non-empty subsidiaries list,
`json_to_csv` serializes the dropped table; a CSV reader sees exactly
`len(subsidiaries)` data rows after the header row, and the i-th data row is
rendered from the i-th source record (no re-sorting). -/
theorem claim3_row_count_and_order :
    ∀ (fields : List (String × Json)) (recs : List Json),
      fields.lookup "status" = some (Json.str "success") →
      fields.lookup "subsidiaries" = some (Json.arr recs) →
      recs ≠ [] → recs.all Json.isObj = true →
      jsonToCsv (some (Json.obj fields))
        = CsvOutcome.csv (csvOfTable (csvTransform (recs.map Json.fieldsOf))) ∧
      parseCsv (csvOfTable (csvTransform (recs.map Json.fieldsOf)))
        = padRow (csvTransform (recs.map Json.fieldsOf)).columns
          :: recs.map (fun rec =>
              padRow ((csvTransform (recs.map Json.fieldsOf)).columns.map
                (fun c => renderCell (csvTransform (recs.map Json.fieldsOf)).records c
                  ((nestedToRecord rec.fieldsOf).lookup c)))) ∧
      (parseCsv (csvOfTable (csvTransform (recs.map Json.fieldsOf)))).length
        = recs.length + 1 := by
  intro fields recs hstatus hsubs hrne hobj
  have hrec : (csvTransform (recs.map Json.fieldsOf)).records
      = recs.map (fun rec => nestedToRecord rec.fieldsOf) := by
    show (recs.map Json.fieldsOf).map nestedToRecord = _
    rw [List.map_map]
    rfl
  have hmid : parseCsv (csvOfTable (csvTransform (recs.map Json.fieldsOf)))
      = padRow (csvTransform (recs.map Json.fieldsOf)).columns
        :: recs.map (fun rec =>
            padRow ((csvTransform (recs.map Json.fieldsOf)).columns.map
              (fun c => renderCell (csvTransform (recs.map Json.fieldsOf)).records c
                ((nestedToRecord rec.fieldsOf).lookup c)))) := by
    rw [parseCsv_csvOfTable]
    congr 1
    unfold tableCells
    rw [hrec, List.map_map, List.map_map]
    rfl
  refine ⟨jsonToCsv_success_eq fields recs hstatus hsubs hrne hobj, hmid, ?_⟩
  rw [hmid]
  simp

/-- Witness for C3: the Scenario 1 envelope of the spec with two subsidiaries
yields a CSV with three reader rows: the header plus one row per record. -/
theorem claim3_row_count_and_order_witness :
    jsonToCsv (some (Json.obj [("status", Json.str "success"), ("count", Json.num 2),
        ("subsidiaries", Json.arr
          [Json.obj [("id", Json.str "1"), ("name", Json.str "Acme UK")],
           Json.obj [("id", Json.str "2"), ("name", Json.str "Acme FR")]])]))
      = CsvOutcome.csv (csvOfTable (csvTransform
          ([Json.obj [("id", Json.str "1"), ("name", Json.str "Acme UK")],
            Json.obj [("id", Json.str "2"), ("name", Json.str "Acme FR")]].map
            Json.fieldsOf))) ∧
    (parseCsv (csvOfTable (csvTransform
        ([Json.obj [("id", Json.str "1"), ("name", Json.str "Acme UK")],
          Json.obj [("id", Json.str "2"), ("name", Json.str "Acme FR")]].map
          Json.fieldsOf)))).length = 2 + 1 := by
  have h := claim3_row_count_and_order
    [("status", Json.str "success"), ("count", Json.num 2),
     ("subsidiaries", Json.arr
       [Json.obj [("id", Json.str "1"), ("name", Json.str "Acme UK")],
        Json.obj [("id", Json.str "2"), ("name", Json.str "Acme FR")]])]
    [Json.obj [("id", Json.str "1"), ("name", Json.str "Acme UK")],
     Json.obj [("id", Json.str "2"), ("name", Json.str "Acme FR")]]
    rfl rfl (by simp) rfl
  exact ⟨h.1, h.2.2⟩

end GetSubs
